import Mathlib

/-!
# GitLeadCLI: the setup wizard's transition function and connectivity check

A shallow embedding of `main.go`: the `model` record, `initialModel`,
`model.Update`, `model.saveInputs`, `checkConnection` and the field table of
`model.setupView`.

Go strings are byte sequences (`len` counts bytes, `s[:n]` slices bytes), so
they are embedded as lists of bytes.  The third-party collaborators
(`encoding/json`, `go-keyring`, `resty`) are parameters of the embedding.
-/

namespace GitLeadCLI

/-! ## Go strings -/

/-- A Go `string`: an immutable sequence of bytes. -/
abbrev GoString := List UInt8

/-- The bytes of a Go string literal (Go source text is UTF-8). -/
def goStr (s : String) : GoString := s.data.flatMap String.utf8EncodeChar

/-- A Go `error` value, identified by the text of its `Error()` method. -/
structure GoError where
  text : GoString
deriving DecidableEq, Repr

/-- Two's-complement wrap-around of Go's 64-bit `int`. -/
def wrapInt64 (x : Int) : Int := (x + 2 ^ 63) % 2 ^ 64 - 2 ^ 63

/-- Membership of a byte in an ASCII cutset. -/
def inCutset (cutset : GoString) (b : UInt8) : Bool := cutset.contains b

/-- Go's `strings.Trim(s, cutset)` for an ASCII cutset: all leading and trailing
bytes contained in the cutset are removed (right end first, then left). -/
def stringsTrim (s cutset : GoString) : GoString :=
  (s.rdropWhile (inCutset cutset)).dropWhile (inCutset cutset)

/-- Go's `strings.Repeat(s, count)`. -/
def stringsRepeat (s : GoString) (count : Nat) : GoString :=
  (List.replicate count s).flatten

/-- Go's `fmt.Sprintf("%d", n)`: the decimal rendering of an `int`. -/
def fmtD : Int → GoString
  | Int.ofNat n => goStr (Nat.repr n)
  | Int.negSucc n => goStr "-" ++ goStr (Nat.repr (n + 1))

/-- Go's map index expression `m[key]` on a `map[string]string`: the zero value
`""` when the key is absent. -/
def mapIndex (m : List (GoString × GoString)) (key : GoString) : GoString :=
  match m.lookup key with
  | some v => v
  | none => []

/-! ## Data model -/

/-- The Go type `screen` is `int`. -/
abbrev screen := Int

def setupScreen : screen := 0

def connectionScreen : screen := 1

/-- The `model` struct. -/
structure model where
  projectName : GoString
  gitlabHost : GoString
  accessToken : GoString
  currentField : Int
  currentScreen : screen
  connectionStatus : GoString
  err : Option GoError
deriving DecidableEq, Repr

/-- The function `initialModel`: every unnamed field has its zero value. -/
def initialModel : model :=
  { projectName := []
    gitlabHost := []
    accessToken := []
    currentField := 0
    currentScreen := setupScreen
    connectionStatus := []
    err := none }

/-- The commands `Update` can return: `tea.Quit` and `checkConnection`
(a `nil` command is `none`). -/
inductive Cmd where
  | Quit
  | checkConnection
deriving DecidableEq, Repr

/-- The messages `Update` distinguishes in its type switch: a `tea.KeyMsg`
(only its `String()` is inspected), a `connectionStatusMsg`, or any other
message. -/
inductive Msg where
  | KeyMsg (str : GoString)
  | connectionStatusMsg (status : GoString)
  | other
deriving DecidableEq, Repr

/-! ## External collaborators -/

/-- The library calls made by the program, over a secret-store state `σ`:
`json.Marshal` on a `map[string]string`, `json.Unmarshal` into one,
`keyring.Set(service, account, blob)`, `keyring.Get(service, account)` and
the resty GET (URL and request headers in, status code out). -/
structure Collaborators (σ : Type) where
  jsonMarshal : List (GoString × GoString) → Except GoError GoString
  jsonUnmarshal : GoString → Except GoError (List (GoString × GoString))
  keyringSet : σ → GoString → GoString → GoString → Option GoError × σ
  keyringGet : σ → GoString → GoString → Except GoError GoString
  httpGet : GoString → List (GoString × GoString) → Except GoError Int

/-- The map literal built by `saveInputs`. -/
def configMap (m : model) : List (GoString × GoString) :=
  [ (goStr "projectName", m.projectName),
    (goStr "gitlabHost", m.gitlabHost),
    (goStr "accessToken", m.accessToken) ]

/-- The method `model.saveInputs`: the returned error (`none` is `nil`) and the
secret store afterwards. -/
def saveInputs {σ : Type} (C : Collaborators σ) (st : σ) (m : model) :
    Option GoError × σ :=
  match C.jsonMarshal (configMap m) with
  | Except.error e => (some e, st)
  | Except.ok data => C.keyringSet st (goStr "GitLeadCLI") (goStr "config") data

/-- The function `checkConnection`: the text of the returned
`connectionStatusMsg`. -/
def checkConnection {σ : Type} (C : Collaborators σ) (st : σ) : GoString :=
  match C.keyringGet st (goStr "GitLeadCLI") (goStr "config") with
  | Except.error e => goStr "Error retrieving config: " ++ e.text
  | Except.ok data =>
    match C.jsonUnmarshal data with
    | Except.error e => goStr "Error parsing config: " ++ e.text
    | Except.ok config =>
      match C.httpGet (mapIndex config (goStr "gitlabHost") ++ goStr "/api/v4/projects")
          [(goStr "PRIVATE-TOKEN", mapIndex config (goStr "accessToken"))] with
      | Except.error e => goStr "Connection failed: " ++ e.text
      | Except.ok code =>
        if code = 200 then goStr "Connection works!"
        else goStr "Connection failed: Status " ++ fmtD code

/-! ## The transition function -/

/-- The method `model.Update`: the returned model, the returned command and the
secret store afterwards. -/
def Update {σ : Type} (C : Collaborators σ) (st : σ) (m : model) :
    Msg → (model × Option Cmd) × σ
  | Msg.KeyMsg str =>
    if str = goStr "ctrl+c" ∨ str = goStr "q" then
      ((m, some Cmd.Quit), st)
    else if str = goStr "enter" then
      if m.currentScreen = setupScreen then
        if m.currentField = 2 then
          match saveInputs C st m with
          | (some e, st') => (({ m with err := some e }, none), st')
          | (none, st') => ((m, some Cmd.checkConnection), st')
        else
          (({ m with currentField := Int.tmod (wrapInt64 (m.currentField + 1)) 3 }, none), st)
      else if m.currentScreen = connectionScreen ∧
          m.connectionStatus ≠ goStr "Connection works!" then
        ((initialModel, none), st)
      else
        ((m, none), st)
    else if str = goStr "up" then
      if m.currentField > 0 then
        (({ m with currentField := wrapInt64 (m.currentField - 1) }, none), st)
      else
        ((m, none), st)
    else if str = goStr "down" then
      if m.currentField < 2 then
        (({ m with currentField := wrapInt64 (m.currentField + 1) }, none), st)
      else
        ((m, none), st)
    else if str = goStr "backspace" then
      if m.currentField = 0 then
        if m.projectName.length > 0 then
          (({ m with projectName := m.projectName.take (m.projectName.length - 1) }, none), st)
        else
          ((m, none), st)
      else if m.currentField = 1 then
        if m.gitlabHost.length > 0 then
          (({ m with gitlabHost := m.gitlabHost.take (m.gitlabHost.length - 1) }, none), st)
        else
          ((m, none), st)
      else if m.currentField = 2 then
        if m.accessToken.length > 0 then
          (({ m with accessToken := m.accessToken.take (m.accessToken.length - 1) }, none), st)
        else
          ((m, none), st)
      else
        ((m, none), st)
    else
      let input := stringsTrim str (goStr "[]")
      if m.currentField = 0 then
        (({ m with projectName := m.projectName ++ input }, none), st)
      else if m.currentField = 1 then
        (({ m with gitlabHost := m.gitlabHost ++ input }, none), st)
      else if m.currentField = 2 then
        (({ m with accessToken := m.accessToken ++ input }, none), st)
      else
        ((m, none), st)
  | Msg.connectionStatusMsg status =>
    (({ m with connectionStatus := status, currentScreen := connectionScreen }, none), st)
  | Msg.other => ((m, none), st)

/-- The event loop applied to a finite sequence of key events: each event is
passed to `Update` and the returned model and store are carried on. -/
def runKeys {σ : Type} (C : Collaborators σ) (st : σ) (m : model) :
    List GoString → model × σ
  | [] => (m, st)
  | k :: ks =>
    let r := Update C st m (Msg.KeyMsg k)
    runKeys C r.2 r.1.1 ks

/-! ## The field table of `setupView` -/

/-- The `fields` slice built by `model.setupView`: prompt and displayed value
of each input. -/
def setupFields (m : model) : List (GoString × GoString) :=
  [ (goStr "Project-Name:    ", m.projectName),
    (goStr "GitLab-Host-URL: ", m.gitlabHost),
    (goStr "Access-Token:    ", stringsRepeat (goStr "*") m.accessToken.length) ]

/-- The value displayed for the access-token input (the third row of the
field table). -/
def tokenFieldValue (m : model) : GoString :=
  match (setupFields m).get? 2 with
  | some row => row.2
  | none => []

/-- Go's `fmt.Sprintf("%-16s%s", prompt, value)` for an ASCII prompt: the
prompt left-justified in a field of at least 16 columns, then the value. -/
def sprintfField (prompt value : GoString) : GoString :=
  prompt ++ List.replicate (16 - prompt.length) 0x20 ++ value

/-- The `input` lines `model.setupView` hands to the renderer, one per row of
the field table. -/
def setupInputs (m : model) : List GoString :=
  (setupFields m).map fun row => sprintfField row.1 row.2

/-! ## The reserved keys -/

/-- The key strings with a `case` of their own in the key switch of `Update`. -/
def reservedKeys : List GoString :=
  [goStr "ctrl+c", goStr "q", goStr "enter", goStr "up", goStr "down", goStr "backspace"]

/-- The text a sequence of key events contributes to the focused buffer: each
event string with its leading and trailing brackets trimmed, in order. -/
def typedText (keys : List GoString) : GoString :=
  (keys.map fun k => stringsTrim k (goStr "[]")).flatten

/-- The state after the `default` branch of the key switch appended `input` to
the focused buffer. -/
def appendFocused (m : model) (input : GoString) : model :=
  if m.currentField = 0 then { m with projectName := m.projectName ++ input }
  else if m.currentField = 1 then { m with gitlabHost := m.gitlabHost ++ input }
  else if m.currentField = 2 then { m with accessToken := m.accessToken ++ input }
  else m

/-! ## Decimal numerals and text-input events -/

/-- The number denoted by a string of ASCII decimal digits, most significant
digit first. -/
def digitsValue (ds : GoString) : Nat :=
  ds.foldl (fun acc b => 10 * acc + (b.toNat - 48)) 0

/-- The string `ds` is the decimal numeral of the natural number `n`: a
non-empty string of the digits "0" to "9", without a leading zero unless it is
"0" itself, that denotes `n`. -/
def IsDecimalNat (n : Nat) (ds : GoString) : Prop :=
  ds ≠ [] ∧ (∀ b ∈ ds, 48 ≤ b.toNat ∧ b.toNat ≤ 57) ∧
    (ds.head? = some 48 → ds = [48]) ∧ digitsValue ds = n

/-- The string `s` is the decimal rendering of the integer `c`: the numeral of
`c` when `c` is not negative, and a minus sign followed by the numeral of its
absolute value when it is. -/
def IsDecimal (c : Int) (s : GoString) : Prop :=
  (0 ≤ c → IsDecimalNat c.toNat s) ∧
    (c < 0 → ∃ ds, s = 0x2D :: ds ∧ IsDecimalNat c.natAbs ds)

/-- The byte is one of the brackets "[" and "]". -/
def isBracket (b : UInt8) : Bool := b == 0x5B || b == 0x5D

/-- The text begins with a bracket. -/
def beginsWithBracket (t : GoString) : Bool :=
  match t.head? with
  | some b => isBracket b
  | none => false

/-- The text ends with a bracket. -/
def endsWithBracket (t : GoString) : Bool :=
  match t.getLast? with
  | some b => isBracket b
  | none => false

/-- The text neither begins nor ends with a bracket. -/
def Plain (t : GoString) : Prop :=
  beginsWithBracket t = false ∧ endsWithBracket t = false

/-- A text-input event: the text it carries and whether the terminal delivered
it as a bracketed paste. -/
structure TextEvent where
  pasted : Bool
  text : GoString
deriving DecidableEq, Repr

/-- The key string of a text-input event: the text itself, wrapped in "[" and
"]" when it was pasted. -/
def eventKey (e : TextEvent) : GoString :=
  if e.pasted then [0x5B] ++ e.text ++ [0x5D] else e.text

/-! ## Test doubles for the collaborators -/

/-- An in-memory secret store: entries keyed by service and account. -/
abbrev MemStore := List ((GoString × GoString) × GoString)

/-- Byte-wise lexicographic order of Go strings (`a <= b`). -/
def bytesLE : GoString → GoString → Bool
  | [], _ => true
  | _ :: _, [] => false
  | a :: as, b :: bs => if a < b then true else if b < a then false else bytesLE as bs

/-- Insertion of a member into a list sorted by key. -/
def insertMember (p : GoString × GoString) :
    List (GoString × GoString) → List (GoString × GoString)
  | [] => [p]
  | q :: qs => if bytesLE p.1 q.1 then p :: q :: qs else q :: insertMember p qs

/-- The members sorted by key, as `json.Marshal` emits the entries of a map. -/
def sortMembers (kv : List (GoString × GoString)) : List (GoString × GoString) :=
  kv.foldr insertMember []

/-- A UTF-8 continuation byte. -/
def isCont (b : UInt8) : Bool := decide (0x80 ≤ b) && decide (b ≤ 0xBF)

/-- The size reported by `utf8.DecodeRuneInString` for a well-formed encoding
at the head of the string, and 0 where it reports `RuneError` with size 1. -/
def runeSize : GoString → Nat
  | [] => 0
  | b0 :: rest =>
    if b0 < 0x80 then 1
    else if 0xC2 ≤ b0 ∧ b0 ≤ 0xDF then
      match rest with
      | b1 :: _ => if isCont b1 then 2 else 0
      | [] => 0
    else if 0xE0 ≤ b0 ∧ b0 ≤ 0xEF then
      match rest with
      | b1 :: b2 :: _ =>
        if (if b0 = 0xE0 then 0xA0 else 0x80) ≤ b1 ∧ b1 ≤ (if b0 = 0xED then 0x9F else 0xBF) ∧
            isCont b2 then 3 else 0
      | _ => 0
    else if 0xF0 ≤ b0 ∧ b0 ≤ 0xF4 then
      match rest with
      | b1 :: b2 :: b3 :: _ =>
        if (if b0 = 0xF0 then 0x90 else 0x80) ≤ b1 ∧ b1 ≤ (if b0 = 0xF4 then 0x8F else 0xBF) ∧
            isCont b2 ∧ isCont b3 then 4 else 0
      | _ => 0
    else 0

/-- A lower-case hexadecimal digit. -/
def hexDigit (n : Nat) : UInt8 := UInt8.ofNat (if n < 10 then 48 + n else 87 + n)

/-- The escape `json.Marshal` writes for an ASCII byte outside its HTML-safe
set: a short escape where one exists, else a six-byte unicode escape. -/
def escapeAscii (b : UInt8) : GoString :=
  if b = 0x5C ∨ b = 0x22 then [0x5C, b]
  else if b = 0x08 then goStr "\\b"
  else if b = 0x0C then goStr "\\f"
  else if b = 0x0A then goStr "\\n"
  else if b = 0x0D then goStr "\\r"
  else if b = 0x09 then goStr "\\t"
  else goStr "\\u00" ++ [hexDigit (b.toNat / 16), hexDigit (b.toNat % 16)]

/-- The HTML-safe ASCII bytes of `encoding/json`: printable ASCII and DEL
except the double quote, ampersand, angle brackets and backslash. -/
def htmlSafe (b : UInt8) : Bool :=
  decide (0x20 ≤ b) && decide (b < 0x80) &&
    !(b == 0x22 || b == 0x26 || b == 0x3C || b == 0x3E || b == 0x5C)

/-- The body of a JSON string as `json.Marshal` writes it (HTML escaping on):
unsafe ASCII escaped, ill-formed UTF-8 replaced, line and paragraph separator
escaped. -/
def escapeBody : Nat → GoString → GoString
  | 0, _ => []
  | _, [] => []
  | fuel + 1, b :: rest =>
    if b < 0x80 then
      (if htmlSafe b then [b] else escapeAscii b) ++ escapeBody fuel rest
    else if runeSize (b :: rest) = 0 then
      goStr "\\ufffd" ++ escapeBody fuel rest
    else if (b :: rest).take 3 = [0xE2, 0x80, 0xA8] then
      goStr "\\u2028" ++ escapeBody fuel (rest.drop 2)
    else if (b :: rest).take 3 = [0xE2, 0x80, 0xA9] then
      goStr "\\u2029" ++ escapeBody fuel (rest.drop 2)
    else
      (b :: rest).take (runeSize (b :: rest)) ++
        escapeBody fuel (rest.drop (runeSize (b :: rest) - 1))

/-- A quoted JSON string. -/
def jsonString (s : GoString) : GoString :=
  [0x22] ++ escapeBody s.length s ++ [0x22]

/-- Stand-in for `json.Marshal` on a `map[string]string` (as of Go 1.22):
members sorted by key, strings escaped, no white space. -/
def marshalMap (kv : List (GoString × GoString)) : GoString :=
  [0x7B] ++
    List.flatten (List.intersperse [0x2C]
      ((sortMembers kv).map fun p => jsonString p.1 ++ [0x3A] ++ jsonString p.2)) ++
    [0x7D]


/-- The value of a hexadecimal digit. -/
def hexVal (b : UInt8) : Option Nat :=
  if 0x30 ≤ b ∧ b ≤ 0x39 then some (b.toNat - 0x30)
  else if 0x61 ≤ b ∧ b ≤ 0x66 then some (b.toNat - 0x57)
  else if 0x41 ≤ b ∧ b ≤ 0x46 then some (b.toNat - 0x37)
  else none

/-- The code unit of a unicode escape (backslash, `u`, four hexadecimal
digits) at the head of the string. -/
def getu4 : GoString → Option Nat
  | b0 :: b1 :: h1 :: h2 :: h3 :: h4 :: _ =>
    if b0 = 0x5C ∧ b1 = 0x75 then
      match hexVal h1, hexVal h2, hexVal h3, hexVal h4 with
      | some a, some b, some c, some d => some (((a * 16 + b) * 16 + c) * 16 + d)
      | _, _, _, _ => none
    else none
  | _ => none

/-- The UTF-8 encoding of a code point that is not a surrogate. -/
def encodeRune (r : Nat) : GoString := String.utf8EncodeChar (Char.ofNat r)

/-- The replacement character U+FFFD in UTF-8. -/
def replacementBytes : GoString := [0xEF, 0xBF, 0xBD]

/-- The byte a one-letter escape stands for. -/
def simpleEscape (e : UInt8) : Option UInt8 :=
  if e = 0x22 ∨ e = 0x5C ∨ e = 0x2F then some e
  else if e = 0x62 then some 0x08
  else if e = 0x66 then some 0x0C
  else if e = 0x6E then some 0x0A
  else if e = 0x72 then some 0x0D
  else if e = 0x74 then some 0x09
  else none

/-- Puts decoded bytes in front of the decoded remainder of a string. -/
def prepend (x : GoString) : Option (GoString × GoString) → Option (GoString × GoString)
  | some (s, rest) => some (x ++ s, rest)
  | none => none

/-- Reads the body of a JSON string up to its closing quote; returns the
decoded bytes and the input after the quote. -/
def readString : Nat → GoString → Option (GoString × GoString)
  | 0, _ => none
  | _, [] => none
  | fuel + 1, b :: rest =>
    if b = 0x22 then some ([], rest)
    else if b < 0x20 then none
    else if b = 0x5C then
      match rest with
      | [] => none
      | e :: rest1 =>
        if e = 0x75 then
          match getu4 (b :: rest) with
          | none => none
          | some rr =>
            if 0xD800 ≤ rr ∧ rr < 0xE000 then
              match getu4 (rest1.drop 4) with
              | some rr1 =>
                if rr < 0xDC00 ∧ 0xDC00 ≤ rr1 ∧ rr1 < 0xE000 then
                  prepend (encodeRune ((rr - 0xD800) * 1024 + (rr1 - 0xDC00) + 0x10000))
                    (readString fuel (rest1.drop 10))
                else prepend replacementBytes (readString fuel (rest1.drop 4))
              | none => prepend replacementBytes (readString fuel (rest1.drop 4))
            else prepend (encodeRune rr) (readString fuel (rest1.drop 4))
        else
          match simpleEscape e with
          | some c => prepend [c] (readString fuel rest1)
          | none => none
    else if b < 0x80 then prepend [b] (readString fuel rest)
    else if runeSize (b :: rest) = 0 then prepend replacementBytes (readString fuel rest)
    else
      prepend ((b :: rest).take (runeSize (b :: rest)))
        (readString fuel (rest.drop (runeSize (b :: rest) - 1)))

/-- Drops leading JSON white space. -/
def skipWs (s : GoString) : GoString :=
  s.dropWhile fun b => b == 0x20 || b == 0x09 || b == 0x0A || b == 0x0D

/-- Reads a member value a `map[string]string` accepts: a string, or `null`
(which stores the empty string). -/
def readValue (s : GoString) : Option (GoString × GoString) :=
  match s with
  | [] => none
  | b :: rest =>
    if b = 0x22 then readString (rest.length + 1) rest
    else if s.take 4 = goStr "null" then some ([], s.drop 4)
    else none

/-- Map assignment `m[k] = v`: a later member replaces an earlier one with the
same key. -/
def setKey (k v : GoString) (m : List (GoString × GoString)) : List (GoString × GoString) :=
  (m.filter fun p => p.1 != k) ++ [(k, v)]

/-- Reads the members of an object, positioned at the first key, up to the
closing brace and the end of the input. -/
def readMembers : Nat → GoString → List (GoString × GoString) →
    Option (List (GoString × GoString))
  | 0, _, _ => none
  | fuel + 1, s, acc =>
    match s with
    | [] => none
    | b :: rest =>
      if b = 0x22 then
        match readString (rest.length + 1) rest with
        | none => none
        | some (k, s1) =>
          match skipWs s1 with
          | [] => none
          | c :: s2 =>
            if c = 0x3A then
              match readValue (skipWs s2) with
              | none => none
              | some (v, s3) =>
                match skipWs s3 with
                | [] => none
                | d :: s4 =>
                  if d = 0x7D then
                    if skipWs s4 = [] then some (setKey k v acc) else none
                  else if d = 0x2C then readMembers fuel (skipWs s4) (setKey k v acc)
                  else none
            else none
      else none

/-- The map a JSON text decodes to under `json.Unmarshal` into a
`map[string]string`, or `none` where it reports an error: the text must be
`null` or an object whose member values are strings or `null`. -/
def decodeMap (data : GoString) : Option (List (GoString × GoString)) :=
  match skipWs data with
  | [] => none
  | b :: rest =>
    if b = 0x7B then
      match skipWs rest with
      | [] => none
      | c :: rest1 =>
        if c = 0x7D then (if skipWs rest1 = [] then some [] else none)
        else readMembers (rest.length + 1) (c :: rest1) []
    else if (b :: rest).take 4 = goStr "null" ∧ skipWs ((b :: rest).drop 4) = [] then some []
    else none

/-- Stand-in for `json.Unmarshal` into a `map[string]string`; the error text
is a placeholder for the decoder's message. -/
def unmarshalMap (data : GoString) : Except GoError (List (GoString × GoString)) :=
  match decodeMap data with
  | some m => Except.ok m
  | none => Except.error ⟨goStr "invalid JSON for map[string]string"⟩

/-- Collaborators over the in-memory store; the GET answers with `status` for
the one expected request and fails for any other. -/
def memCollab (status : Int) : Collaborators MemStore where
  jsonMarshal := fun kv => Except.ok (marshalMap kv)
  jsonUnmarshal := unmarshalMap
  keyringSet := fun st svc acc v =>
    (none, ((svc, acc), v) :: st.filter fun e => e.1 != (svc, acc))
  keyringGet := fun st svc acc =>
    match st.lookup (svc, acc) with
    | some v => Except.ok v
    | none => Except.error ⟨goStr "secret not found in keyring"⟩
  httpGet := fun url headers =>
    if url = goStr "https://example.com/api/v4/projects" ∧
        headers = [(goStr "PRIVATE-TOKEN", goStr "t")] then Except.ok status
    else Except.error ⟨goStr "no such host"⟩

/-- Collaborators whose secret store rejects every write and every read. -/
def lockedCollab : Collaborators MemStore where
  jsonMarshal := fun kv => Except.ok (marshalMap kv)
  jsonUnmarshal := unmarshalMap
  keyringSet := fun st _ _ _ => (some ⟨goStr "secret service unavailable"⟩, st)
  keyringGet := fun _ _ _ => Except.error ⟨goStr "secret service unavailable"⟩
  httpGet := fun _ _ => Except.error ⟨goStr "no such host"⟩

/-- The sample blob of the specification. -/
def sampleBlob : GoString :=
  goStr "\x7b\"projectName\":\"p\",\"gitlabHost\":\"https://example.com\",\"accessToken\":\"t\"\x7d"

/-- The blob `json.Marshal` produces for the sample configuration: members
sorted by key. -/
def savedBlob : GoString :=
  goStr "\x7b\"accessToken\":\"t\",\"gitlabHost\":\"https://example.com\",\"projectName\":\"p\"\x7d"

/-- A secret store holding the sample blob under the application entry. -/
def sampleStore : MemStore :=
  [((goStr "GitLeadCLI", goStr "config"), sampleBlob)]

/-- The configuration map the sample blob decodes to. -/
def sampleConfig : List (GoString × GoString) :=
  [ (goStr "projectName", goStr "p"),
    (goStr "gitlabHost", goStr "https://example.com"),
    (goStr "accessToken", goStr "t") ]

/-- A state at the last field with the sample configuration typed in. -/
def sampleModel : model :=
  { initialModel with
    projectName := goStr "p"
    gitlabHost := goStr "https://example.com"
    accessToken := goStr "t"
    currentField := 2 }

/-! ## Unfolding lemmas for the key switch -/

theorem wrapInt64_small (x : Int) (h1 : -4 ≤ x) (h2 : x ≤ 4) : wrapInt64 x = x := by
  unfold wrapInt64
  norm_num
  omega

theorem Update_enter {σ : Type} (C : Collaborators σ) (st : σ) (m : model) :
    Update C st m (Msg.KeyMsg (goStr "enter")) =
      if m.currentScreen = setupScreen then
        if m.currentField = 2 then
          match saveInputs C st m with
          | (some e, st') => (({ m with err := some e }, none), st')
          | (none, st') => ((m, some Cmd.checkConnection), st')
        else
          (({ m with currentField := Int.tmod (wrapInt64 (m.currentField + 1)) 3 }, none), st)
      else if m.currentScreen = connectionScreen ∧
          m.connectionStatus ≠ goStr "Connection works!" then
        ((initialModel, none), st)
      else
        ((m, none), st) := by
  have h1 : ¬ (goStr "enter" = goStr "ctrl+c" ∨ goStr "enter" = goStr "q") := by decide
  simp only [Update, if_neg h1, if_true]

theorem Update_up {σ : Type} (C : Collaborators σ) (st : σ) (m : model) :
    Update C st m (Msg.KeyMsg (goStr "up")) =
      if m.currentField > 0 then
        (({ m with currentField := wrapInt64 (m.currentField - 1) }, none), st)
      else ((m, none), st) := by
  have h1 : ¬ (goStr "up" = goStr "ctrl+c" ∨ goStr "up" = goStr "q") := by decide
  have h2 : ¬ (goStr "up" = goStr "enter") := by decide
  simp only [Update, if_neg h1, if_neg h2, if_true]

theorem Update_down {σ : Type} (C : Collaborators σ) (st : σ) (m : model) :
    Update C st m (Msg.KeyMsg (goStr "down")) =
      if m.currentField < 2 then
        (({ m with currentField := wrapInt64 (m.currentField + 1) }, none), st)
      else ((m, none), st) := by
  have h1 : ¬ (goStr "down" = goStr "ctrl+c" ∨ goStr "down" = goStr "q") := by decide
  have h2 : ¬ (goStr "down" = goStr "enter") := by decide
  have h3 : ¬ (goStr "down" = goStr "up") := by decide
  simp only [Update, if_neg h1, if_neg h2, if_neg h3, if_true]

/-! ## Submitting at the last field -/

/-- C1: on the setup screen at field 2, when the write of the serialized
triple of the three buffers (the JSON encoding of the map from "projectName",
"gitlabHost" and "accessToken" to the buffers) under service "GitLeadCLI",
account "config" succeeds, `Update` on "enter" returns the input state
unchanged together with the `checkConnection` command, and the store
afterwards is the one that write produced. -/
theorem update_enter_last_field_saved {σ : Type} (C : Collaborators σ) (st st' : σ)
    (m : model) (data : GoString)
    (hscreen : m.currentScreen = setupScreen) (hfield : m.currentField = 2)
    (hdata : C.jsonMarshal
      [ (goStr "projectName", m.projectName),
        (goStr "gitlabHost", m.gitlabHost),
        (goStr "accessToken", m.accessToken) ] = Except.ok data)
    (hwrite : C.keyringSet st (goStr "GitLeadCLI") (goStr "config") data = (none, st')) :
    Update C st m (Msg.KeyMsg (goStr "enter")) = ((m, some Cmd.checkConnection), st') ∧
      (Update C st m (Msg.KeyMsg (goStr "enter"))).2 =
        (C.keyringSet st (goStr "GitLeadCLI") (goStr "config") data).2 := by
  have hmap : C.jsonMarshal (configMap m) = Except.ok data := hdata
  have h : Update C st m (Msg.KeyMsg (goStr "enter")) =
      ((m, some Cmd.checkConnection), st') := by
    rw [Update_enter, if_pos hscreen, if_pos hfield]
    simp only [saveInputs, hmap, hwrite]
  exact ⟨h, by rw [h, hwrite]⟩

/-- Witness for C1: the sample state over the in-memory store; the entry read
back afterwards is the JSON object of the three buffers. -/
theorem update_enter_last_field_saved_witness :
    (Update (memCollab 200) [] sampleModel (Msg.KeyMsg (goStr "enter")) =
        ((sampleModel, some Cmd.checkConnection),
          [((goStr "GitLeadCLI", goStr "config"), savedBlob)]) ∧
      (Update (memCollab 200) [] sampleModel (Msg.KeyMsg (goStr "enter"))).2 =
        ((memCollab 200).keyringSet [] (goStr "GitLeadCLI") (goStr "config") savedBlob).2) ∧
      (memCollab 200).keyringGet [((goStr "GitLeadCLI", goStr "config"), savedBlob)]
        (goStr "GitLeadCLI") (goStr "config") = Except.ok savedBlob :=
  ⟨update_enter_last_field_saved (memCollab 200) []
    [((goStr "GitLeadCLI", goStr "config"), savedBlob)] sampleModel savedBlob
    rfl rfl (congrArg Except.ok (by decide)) rfl, rfl⟩

/-- C2: on the setup screen at field 2, when the write of the serialized
configuration fails with error `e`, `Update` on "enter" returns no command and
a state that differs from the input only in `err`, which is `e`; the screen is
still the setup screen. -/
theorem update_enter_last_field_write_fails {σ : Type} (C : Collaborators σ) (st st' : σ)
    (m : model) (data : GoString) (e : GoError)
    (hscreen : m.currentScreen = setupScreen) (hfield : m.currentField = 2)
    (hdata : C.jsonMarshal (configMap m) = Except.ok data)
    (hwrite : C.keyringSet st (goStr "GitLeadCLI") (goStr "config") data = (some e, st')) :
    Update C st m (Msg.KeyMsg (goStr "enter")) = (({ m with err := some e }, none), st') ∧
      (Update C st m (Msg.KeyMsg (goStr "enter"))).1.1.currentScreen = setupScreen := by
  have h : Update C st m (Msg.KeyMsg (goStr "enter")) =
      (({ m with err := some e }, none), st') := by
    rw [Update_enter, if_pos hscreen, if_pos hfield]
    simp only [saveInputs, hdata, hwrite]
  exact ⟨h, by rw [h]; exact hscreen⟩

/-- Witness for C2: the sample state over the store that rejects writes. -/
theorem update_enter_last_field_write_fails_witness :
    Update lockedCollab [] sampleModel (Msg.KeyMsg (goStr "enter")) =
        (({ sampleModel with err := some ⟨goStr "secret service unavailable"⟩ }, none), []) ∧
      (Update lockedCollab [] sampleModel
        (Msg.KeyMsg (goStr "enter"))).1.1.currentScreen = setupScreen :=
  update_enter_last_field_write_fails lockedCollab [] [] sampleModel savedBlob
    ⟨goStr "secret service unavailable"⟩ rfl rfl (congrArg Except.ok (by decide)) rfl

/-! ## Submitting at the first two fields -/

/-- C8: on the setup screen at field 0 or 1, `Update` on "enter" returns the
state with `currentField` increased by exactly one and every other field
unchanged, returns no command, and leaves the secret store as it was. -/
theorem update_enter_advances_focus {σ : Type} (C : Collaborators σ) (st : σ) (m : model)
    (hscreen : m.currentScreen = setupScreen)
    (hfield : m.currentField = 0 ∨ m.currentField = 1) :
    Update C st m (Msg.KeyMsg (goStr "enter")) =
      (({ m with currentField := m.currentField + 1 }, none), st) := by
  have hne : ¬ m.currentField = 2 := by omega
  have hcalc : Int.tmod (wrapInt64 (m.currentField + 1)) 3 = m.currentField + 1 := by
    rw [wrapInt64_small _ (by omega) (by omega)]
    rcases hfield with h | h <;> rw [h] <;> decide
  rw [Update_enter, if_pos hscreen, if_neg hne, hcalc]

/-- Witness for C8: "enter" at field 1 of the sample state. -/
theorem update_enter_advances_focus_witness :
    Update (memCollab 200) [] { sampleModel with currentField := 1 }
        (Msg.KeyMsg (goStr "enter")) =
      (({ sampleModel with currentField := 2 }, none), []) :=
  update_enter_advances_focus (memCollab 200) [] { sampleModel with currentField := 1 }
    rfl (Or.inr rfl)

/-! ## Navigation -/

/-- C7: on the setup screen with `currentField` in 0..2, "up" at field 0 and
"down" at field 2 return the state unchanged, otherwise "up" decrements and
"down" increments `currentField` by one; the resulting `currentField` stays in
0..2, nothing else in the state changes (buffers and screen included), no
command is returned and the store is untouched. -/
theorem update_navigate {σ : Type} (C : Collaborators σ) (st : σ) (m : model)
    (hscreen : m.currentScreen = setupScreen)
    (hfield : 0 ≤ m.currentField ∧ m.currentField ≤ 2) :
    (m.currentField = 0 → Update C st m (Msg.KeyMsg (goStr "up")) = ((m, none), st)) ∧
    (m.currentField ≠ 0 → Update C st m (Msg.KeyMsg (goStr "up")) =
      (({ m with currentField := m.currentField - 1 }, none), st)) ∧
    (m.currentField = 2 → Update C st m (Msg.KeyMsg (goStr "down")) = ((m, none), st)) ∧
    (m.currentField ≠ 2 → Update C st m (Msg.KeyMsg (goStr "down")) =
      (({ m with currentField := m.currentField + 1 }, none), st)) ∧
    (∀ k, k = goStr "up" ∨ k = goStr "down" →
      0 ≤ (Update C st m (Msg.KeyMsg k)).1.1.currentField ∧
      (Update C st m (Msg.KeyMsg k)).1.1.currentField ≤ 2 ∧
      (Update C st m (Msg.KeyMsg k)).1.1.projectName = m.projectName ∧
      (Update C st m (Msg.KeyMsg k)).1.1.gitlabHost = m.gitlabHost ∧
      (Update C st m (Msg.KeyMsg k)).1.1.accessToken = m.accessToken ∧
      (Update C st m (Msg.KeyMsg k)).1.1.currentScreen = setupScreen ∧
      (Update C st m (Msg.KeyMsg k)).1.2 = none ∧
      (Update C st m (Msg.KeyMsg k)).2 = st) := by
  obtain ⟨hlo, hhi⟩ := hfield
  have hup0 : m.currentField = 0 →
      Update C st m (Msg.KeyMsg (goStr "up")) = ((m, none), st) := by
    intro h
    rw [Update_up, if_neg (by omega)]
  have hup : m.currentField ≠ 0 → Update C st m (Msg.KeyMsg (goStr "up")) =
      (({ m with currentField := m.currentField - 1 }, none), st) := by
    intro h
    rw [Update_up, if_pos (by omega), wrapInt64_small _ (by omega) (by omega)]
  have hdown2 : m.currentField = 2 →
      Update C st m (Msg.KeyMsg (goStr "down")) = ((m, none), st) := by
    intro h
    rw [Update_down, if_neg (by omega)]
  have hdown : m.currentField ≠ 2 → Update C st m (Msg.KeyMsg (goStr "down")) =
      (({ m with currentField := m.currentField + 1 }, none), st) := by
    intro h
    rw [Update_down, if_pos (by omega), wrapInt64_small _ (by omega) (by omega)]
  refine ⟨hup0, hup, hdown2, hdown, ?_⟩
  intro k hk
  rcases hk with rfl | rfl
  · by_cases h : m.currentField = 0
    · rw [hup0 h]
      exact ⟨hlo, hhi, rfl, rfl, rfl, hscreen, rfl, rfl⟩
    · rw [hup h]
      exact ⟨by show 0 ≤ m.currentField - 1; omega,
        by show m.currentField - 1 ≤ 2; omega, rfl, rfl, rfl, hscreen, rfl, rfl⟩
  · by_cases h : m.currentField = 2
    · rw [hdown2 h]
      exact ⟨hlo, hhi, rfl, rfl, rfl, hscreen, rfl, rfl⟩
    · rw [hdown h]
      exact ⟨by show 0 ≤ m.currentField + 1; omega,
        by show m.currentField + 1 ≤ 2; omega, rfl, rfl, rfl, hscreen, rfl, rfl⟩

/-- Witness for C7: "up" and "down" at field 2 of the sample state. -/
theorem update_navigate_witness :
    Update (memCollab 200) [] sampleModel (Msg.KeyMsg (goStr "up")) =
        (({ sampleModel with currentField := 1 }, none), []) ∧
      Update (memCollab 200) [] sampleModel (Msg.KeyMsg (goStr "down")) =
        ((sampleModel, none), []) :=
  have h := update_navigate (memCollab 200) [] sampleModel rfl (by decide)
  ⟨h.2.1 (by decide), h.2.2.1 rfl⟩

/-! ## Dismissing the result screen -/

/-- C4: after a check result `s` has been applied to any state, "enter" returns
the initial state (all buffers empty, field 0, setup screen, empty status, no
error) when `s` is not "Connection works!", and returns the state unchanged
when `s` is "Connection works!"; in both cases no command is returned and the
store is untouched. -/
theorem update_enter_after_result {σ : Type} (C : Collaborators σ) (st : σ) (m : model)
    (s : GoString) :
    Update C st m (Msg.connectionStatusMsg s) =
        (({ m with connectionStatus := s, currentScreen := connectionScreen }, none), st) ∧
    (s ≠ goStr "Connection works!" →
      Update C st (Update C st m (Msg.connectionStatusMsg s)).1.1 (Msg.KeyMsg (goStr "enter")) =
        ((initialModel, none), st)) ∧
    (s = goStr "Connection works!" →
      Update C st (Update C st m (Msg.connectionStatusMsg s)).1.1 (Msg.KeyMsg (goStr "enter")) =
        (((Update C st m (Msg.connectionStatusMsg s)).1.1, none), st)) ∧
    initialModel = { projectName := [], gitlabHost := [], accessToken := [],
                     currentField := 0, currentScreen := setupScreen,
                     connectionStatus := [], err := none } := by
  have hne : ¬ (connectionScreen = setupScreen) := by decide
  refine ⟨rfl, ?_, ?_, rfl⟩
  · intro hs
    rw [Update_enter]
    simp only [Update, hne, if_false, hs, ne_eq, not_false_eq_true, and_self, if_true]
  · intro hs
    rw [Update_enter]
    simp only [Update, hne, if_false, hs, ne_eq, not_true_eq_false, and_false]

/-- Witness for C4: dismissing a failed check returns the initial state. -/
theorem update_enter_after_result_witness :
    Update (memCollab 200) []
        (Update (memCollab 200) [] sampleModel
          (Msg.connectionStatusMsg (goStr "Connection failed: Status 404"))).1.1
        (Msg.KeyMsg (goStr "enter")) = ((initialModel, none), []) :=
  (update_enter_after_result (memCollab 200) [] sampleModel
    (goStr "Connection failed: Status 404")).2.1 (by decide)

/-! ## The connectivity check -/

theorem encode_digitChar (d : Nat) (hd : d < 10) :
    String.utf8EncodeChar (Nat.digitChar d) = [UInt8.ofNat (48 + d)] := by
  interval_cases d <;> decide

theorem digitByte_toNat (d : Nat) (hd : d < 10) : (UInt8.ofNat (48 + d)).toNat = 48 + d := by
  interval_cases d <;> decide

theorem toDigitsCore_spec (fuel : Nat) : ∀ (n : Nat) (acc : List Char), n < fuel →
    ∃ pre : List Nat, pre ≠ [] ∧ (∀ d ∈ pre, d < 10) ∧
      pre.foldl (fun a d => 10 * a + d) 0 = n ∧
      (pre.head? = some 0 → pre = [0]) ∧
      Nat.toDigitsCore 10 fuel n acc = pre.map Nat.digitChar ++ acc := by
  induction fuel with
  | zero => intro n acc h; omega
  | succ fuel ih =>
    intro n acc h
    unfold Nat.toDigitsCore
    by_cases h0 : n / 10 = 0
    · refine ⟨[n % 10], by simp, ?_, ?_, ?_, ?_⟩
      · intro d hd
        simp at hd
        omega
      · simp
        omega
      · intro _
        simp at *
        omega
      · simp [h0]
    · obtain ⟨pre, hne, hdig, hval, hhead, heq⟩ :=
        ih (n / 10) (Nat.digitChar (n % 10) :: acc) (by omega)
      refine ⟨pre ++ [n % 10], by simp, ?_, ?_, ?_, ?_⟩
      · intro d hd
        rcases List.mem_append.mp hd with h1 | h1
        · exact hdig d h1
        · simp at h1
          omega
      · rw [List.foldl_append, hval]
        simp
        omega
      · intro hh
        exfalso
        cases pre with
        | nil => exact hne rfl
        | cons p ps =>
          simp at hh
          subst hh
          have := hhead rfl
          simp at this
          subst this
          simp at hval
          omega
      · simp [h0, heq]

theorem repr_isDecimalNat (n : Nat) : IsDecimalNat n (goStr (Nat.repr n)) := by
  obtain ⟨pre, hne, hdig, hval, hhead, heq⟩ := toDigitsCore_spec (n + 1) n [] (by omega)
  have hbytes : goStr (Nat.repr n) = pre.map fun d => UInt8.ofNat (48 + d) := by
    simp only [goStr, Nat.repr, Nat.toDigits, heq, List.append_nil, List.asString]
    clear heq hval hhead hne
    induction pre with
    | nil => rfl
    | cons p ps ih =>
      simp only [List.map_cons, List.flatMap_cons]
      rw [encode_digitChar p (hdig p (List.mem_cons_self p ps)),
        ih (fun d hd => hdig d (List.mem_cons_of_mem p hd))]
      rfl
  rw [hbytes]
  refine ⟨by simpa using hne, ?_, ?_, ?_⟩
  · intro b hb
    obtain ⟨d, hd, rfl⟩ := List.mem_map.mp hb
    have hlt := hdig d hd
    rw [digitByte_toNat d hlt]
    omega
  · intro hh
    cases pre with
    | nil => exact absurd rfl hne
    | cons p ps =>
      simp only [List.map_cons, List.head?_cons, Option.some.injEq] at hh
      have hp : p < 10 := hdig p (List.mem_cons_self p ps)
      have hp0 : p = 0 := by
        have := congrArg UInt8.toNat hh
        rw [digitByte_toNat p hp] at this
        have h48 : (48 : UInt8).toNat = 48 := by decide
        omega
      subst hp0
      have := hhead rfl
      simp at this
      subst this
      rfl
  · unfold digitsValue
    rw [List.foldl_map, ← hval]
    clear hval hhead hne hbytes heq
    generalize (0 : Nat) = a
    induction pre generalizing a with
    | nil => rfl
    | cons p ps ih =>
      simp only [List.foldl_cons]
      rw [digitByte_toNat p (hdig p (List.mem_cons_self p ps))]
      have : 48 + p - 48 = p := by omega
      rw [this]
      exact ih (fun d hd => hdig d (List.mem_cons_of_mem p hd)) _

theorem fmtD_isDecimal (c : Int) : IsDecimal c (fmtD c) := by
  cases c with
  | ofNat n =>
    refine ⟨fun _ => ?_, fun h => ?_⟩
    · simpa [fmtD] using repr_isDecimalNat n
    · exact absurd h (by simp)
  | negSucc n =>
    refine ⟨fun h => ?_, fun _ => ?_⟩
    · exact absurd h (by simp)
    · refine ⟨goStr (Nat.repr (n + 1)), rfl, ?_⟩
      simpa using repr_isDecimalNat (n + 1)
theorem append_ne_of_take_ne (p s d : GoString) (n : Nat) (hn : n ≤ p.length)
    (hne : p.take n ≠ s.take n) : p ++ d ≠ s := by
  intro h
  apply hne
  rw [← h, List.take_append_of_le_length hn]

theorem retrieving_ne_works (d : GoString) :
    goStr "Error retrieving config: " ++ d ≠ goStr "Connection works!" :=
  append_ne_of_take_ne _ _ d 1 (by decide) (by decide)

theorem parsing_ne_works (d : GoString) :
    goStr "Error parsing config: " ++ d ≠ goStr "Connection works!" :=
  append_ne_of_take_ne _ _ d 1 (by decide) (by decide)

theorem failed_ne_works (d : GoString) :
    goStr "Connection failed: " ++ d ≠ goStr "Connection works!" :=
  append_ne_of_take_ne _ _ d 12 (by decide) (by decide)

theorem failed_status_ne_works (d : GoString) :
    goStr "Connection failed: Status " ++ d ≠ goStr "Connection works!" :=
  append_ne_of_take_ne _ _ d 12 (by decide) (by decide)

/-- C3: with the secret store, the JSON decoder and the HTTP GET as
parameters, `checkConnection` returns "Error retrieving config: " followed by
the detail when the read fails, "Error parsing config: " followed by the
detail when decoding fails, "Connection failed: " followed by the detail when
the GET fails, "Connection works!" when the GET answers 200 and
"Connection failed: Status " followed by the decimal rendering of the status
code (its canonical decimal numeral, with a minus sign when negative)
otherwise;
the result is "Connection works!" exactly when read, decoding and GET all
succeed with status 200. -/
theorem checkConnection_status {σ : Type} (C : Collaborators σ) (st : σ) :
    (∀ e, C.keyringGet st (goStr "GitLeadCLI") (goStr "config") = Except.error e →
      checkConnection C st = goStr "Error retrieving config: " ++ e.text) ∧
    (∀ data e, C.keyringGet st (goStr "GitLeadCLI") (goStr "config") = Except.ok data →
      C.jsonUnmarshal data = Except.error e →
      checkConnection C st = goStr "Error parsing config: " ++ e.text) ∧
    (∀ data config e,
      C.keyringGet st (goStr "GitLeadCLI") (goStr "config") = Except.ok data →
      C.jsonUnmarshal data = Except.ok config →
      C.httpGet (mapIndex config (goStr "gitlabHost") ++ goStr "/api/v4/projects")
        [(goStr "PRIVATE-TOKEN", mapIndex config (goStr "accessToken"))] = Except.error e →
      checkConnection C st = goStr "Connection failed: " ++ e.text) ∧
    (∀ data config c,
      C.keyringGet st (goStr "GitLeadCLI") (goStr "config") = Except.ok data →
      C.jsonUnmarshal data = Except.ok config →
      C.httpGet (mapIndex config (goStr "gitlabHost") ++ goStr "/api/v4/projects")
        [(goStr "PRIVATE-TOKEN", mapIndex config (goStr "accessToken"))] = Except.ok c →
      (c = 200 → checkConnection C st = goStr "Connection works!") ∧
      (c ≠ 200 → checkConnection C st = goStr "Connection failed: Status " ++ fmtD c ∧
        IsDecimal c (fmtD c))) ∧
    (checkConnection C st = goStr "Connection works!" ↔
      ∃ data config,
        C.keyringGet st (goStr "GitLeadCLI") (goStr "config") = Except.ok data ∧
        C.jsonUnmarshal data = Except.ok config ∧
        C.httpGet (mapIndex config (goStr "gitlabHost") ++ goStr "/api/v4/projects")
          [(goStr "PRIVATE-TOKEN", mapIndex config (goStr "accessToken"))] =
            Except.ok 200) := by
  refine ⟨?_, ?_, ?_, ?_, ?_⟩
  · intro e h
    simp only [checkConnection, h]
  · intro data e h1 h2
    simp only [checkConnection, h1, h2]
  · intro data config e h1 h2 h3
    simp only [checkConnection, h1, h2, h3]
  · intro data config c h1 h2 h3
    constructor
    · intro hc
      simp only [checkConnection, h1, h2, h3, hc, if_true]
    · intro hc
      exact ⟨by simp only [checkConnection, h1, h2, h3, if_neg hc], fmtD_isDecimal c⟩
  · constructor
    · intro h
      unfold checkConnection at h
      cases h1 : C.keyringGet st (goStr "GitLeadCLI") (goStr "config") with
      | error e =>
        rw [h1] at h
        exact absurd h (retrieving_ne_works _)
      | ok data =>
        rw [h1] at h
        simp only at h
        cases h2 : C.jsonUnmarshal data with
        | error e =>
          rw [h2] at h
          exact absurd h (parsing_ne_works _)
        | ok config =>
          rw [h2] at h
          simp only at h
          cases h3 : C.httpGet (mapIndex config (goStr "gitlabHost") ++ goStr "/api/v4/projects")
              [(goStr "PRIVATE-TOKEN", mapIndex config (goStr "accessToken"))] with
          | error e =>
            rw [h3] at h
            exact absurd h (failed_ne_works _)
          | ok c =>
            rw [h3] at h
            simp only at h
            by_cases hc : c = 200
            · subst hc
              exact ⟨data, config, rfl, h2, h3⟩
            · rw [if_neg hc] at h
              exact absurd h (failed_status_ne_works _)
    · rintro ⟨data, config, h1, h2, h3⟩
      simp only [checkConnection, h1, h2, h3, if_true]

/-- Witness for C3: the sample blob with status 200 and with status 404. -/
theorem checkConnection_status_witness :
    checkConnection (memCollab 200) sampleStore = goStr "Connection works!" ∧
      checkConnection (memCollab 404) sampleStore = goStr "Connection failed: Status 404" :=
  ⟨((checkConnection_status (memCollab 200) sampleStore).2.2.2.1
      sampleBlob sampleConfig 200 rfl (by rfl) (by rfl)).1 rfl,
   ((((checkConnection_status (memCollab 404) sampleStore).2.2.2.1
      sampleBlob sampleConfig 404 rfl (by rfl) (by rfl)).2 (by decide)).1).trans (by decide)⟩

/-! ## Editing -/

theorem not_reserved {k : GoString} (hk : k ∉ reservedKeys) :
    k ≠ goStr "ctrl+c" ∧ k ≠ goStr "q" ∧ k ≠ goStr "enter" ∧ k ≠ goStr "up" ∧
      k ≠ goStr "down" ∧ k ≠ goStr "backspace" := by
  simpa [reservedKeys] using hk

theorem Update_edit {σ : Type} (C : Collaborators σ) (st : σ) (m : model) (k : GoString)
    (hk : k ∉ reservedKeys) :
    Update C st m (Msg.KeyMsg k) =
      ((appendFocused m (stringsTrim k (goStr "[]")), none), st) := by
  obtain ⟨h1, h2, h3, h4, h5, h6⟩ := not_reserved hk
  simp only [Update, appendFocused, h1, h2, h3, h4, h5, h6, or_self, if_false]
  split_ifs <;> rfl

theorem appendFocused_nil (m : model) : appendFocused m [] = m := by
  unfold appendFocused
  split_ifs <;> simp

theorem appendFocused_append (m : model) (a b : GoString) :
    appendFocused (appendFocused m a) b = appendFocused m (a ++ b) := by
  unfold appendFocused
  split_ifs <;> simp_all

theorem runKeys_edit {σ : Type} (C : Collaborators σ) (st : σ) (keys : List GoString) :
    ∀ m : model, (∀ k ∈ keys, k ∉ reservedKeys) →
      runKeys C st m keys = (appendFocused m (typedText keys), st) := by
  induction keys with
  | nil =>
    intro m _
    simp [runKeys, typedText, appendFocused_nil]
  | cons k ks ih =>
    intro m hks
    have hk : k ∉ reservedKeys := hks k (List.mem_cons_self k ks)
    have hrest : ∀ x ∈ ks, x ∉ reservedKeys := fun x hx => hks x (List.mem_cons_of_mem k hx)
    simp only [runKeys, Update_edit C st m k hk]
    rw [ih _ hrest, appendFocused_append]
    simp [typedText]

/-- C5 (as stated, refuted): the key event "[" is not a reserved key, yet
typing it into the empty project-name buffer of the initial state leaves the
buffer empty instead of appending the literal text "[". -/
theorem runKeys_literal_text_counterexample :
    goStr "[" ∉ reservedKeys ∧
      initialModel.currentScreen = setupScreen ∧ initialModel.currentField = 0 ∧
      (runKeys (memCollab 200) [] initialModel [goStr "["]).1.projectName ≠
        initialModel.projectName ++ List.flatten [goStr "["] := by
  decide

theorem inCutset_brackets : inCutset (goStr "[]") = isBracket := by
  funext b
  have h : goStr "[]" = [0x5B, 0x5D] := by decide
  unfold inCutset isBracket
  rw [h]
  cases h1 : b == 0x5B <;> cases h2 : b == 0x5D <;>
    simp [List.contains, List.elem, h1, h2]

theorem plain_head (x : UInt8) (xs : GoString) (ht : Plain (x :: xs)) :
    isBracket x = false := ht.1

theorem plain_last (t : GoString) (hl : t ≠ []) (ht : Plain t) :
    isBracket (t.getLast hl) = false := by
  have h := ht.2
  unfold endsWithBracket at h
  rw [List.getLast?_eq_getLast t hl] at h
  exact h

theorem stringsTrim_plain (t : GoString) (ht : Plain t) : stringsTrim t (goStr "[]") = t := by
  unfold stringsTrim
  rw [inCutset_brackets]
  have hr : t.rdropWhile isBracket = t := by
    rw [List.rdropWhile_eq_self_iff]
    intro hl
    simp [plain_last t hl ht]
  rw [hr, List.dropWhile_eq_self_iff]
  intro hl
  cases t with
  | nil => simp at hl
  | cons x xs => simp [plain_head x xs ht]

theorem stringsTrim_wrapped (t : GoString) (ht : Plain t) :
    stringsTrim ([0x5B] ++ t ++ [0x5D]) (goStr "[]") = t := by
  have hopen : isBracket 0x5B = true := by decide
  have hclose : isBracket 0x5D = true := by decide
  unfold stringsTrim
  rw [inCutset_brackets, List.rdropWhile_concat_pos _ _ _ hclose]
  cases t with
  | nil => simp [List.rdropWhile, hopen]
  | cons x xs =>
    have hx : (x :: xs) ≠ [] := by simp
    have hr2 : ([0x5B] ++ (x :: xs)).rdropWhile isBracket = [0x5B] ++ (x :: xs) := by
      rw [List.rdropWhile_eq_self_iff]
      intro hl
      have hl2 : ([0x5B] ++ (x :: xs)).getLast hl = (x :: xs).getLast hx := by
        simp [List.getLast_cons]
      rw [hl2]
      simp [plain_last (x :: xs) hx ht]
    rw [hr2]
    simp [List.dropWhile, hopen, plain_head x xs ht]

theorem stringsTrim_eventKey (e : TextEvent) (he : Plain e.text) :
    stringsTrim (eventKey e) (goStr "[]") = e.text := by
  unfold eventKey
  split_ifs
  · exact stringsTrim_wrapped e.text he
  · exact stringsTrim_plain e.text he

theorem typedText_events (events : List TextEvent) (h : ∀ e ∈ events, Plain e.text) :
    typedText (events.map eventKey) = (events.map fun e => e.text).flatten := by
  unfold typedText
  rw [List.map_map]
  congr 1
  apply List.map_congr_left
  intro e he
  exact stringsTrim_eventKey e (h e he)

/-- C5 (amended): for a state focused on field 0, 1 or 2 (on the setup screen
in particular) and a sequence of text-input events whose key strings are not
reserved and whose texts neither begin nor end with "[" or "]", each delivered
either as typed (the key string is the text) or as a bracketed paste (the key
string is the text wrapped in "[" and "]"), running `Update` over the events
appends to the focused buffer the texts of the events, in order, and changes
nothing else (other buffers, `currentField`, `currentScreen`, store).  For
typed events this is the concatenation of the literal key strings. -/
theorem runKeys_edit_appends {σ : Type} (C : Collaborators σ) (st : σ) (m : model)
    (events : List TextEvent)
    (hplain : ∀ e ∈ events, Plain e.text)
    (hkeys : ∀ e ∈ events, eventKey e ∉ reservedKeys) :
    (m.currentField = 0 → (runKeys C st m (events.map eventKey)).1 =
      { m with projectName := m.projectName ++ (events.map fun e => e.text).flatten }) ∧
    (m.currentField = 1 → (runKeys C st m (events.map eventKey)).1 =
      { m with gitlabHost := m.gitlabHost ++ (events.map fun e => e.text).flatten }) ∧
    (m.currentField = 2 → (runKeys C st m (events.map eventKey)).1 =
      { m with accessToken := m.accessToken ++ (events.map fun e => e.text).flatten }) ∧
    (runKeys C st m (events.map eventKey)).1.currentField = m.currentField ∧
    (runKeys C st m (events.map eventKey)).1.currentScreen = m.currentScreen ∧
    (runKeys C st m (events.map eventKey)).2 = st ∧
    ((∀ e ∈ events, e.pasted = false) →
      (events.map fun e => e.text).flatten = (events.map eventKey).flatten) := by
  have hk : ∀ k ∈ events.map eventKey, k ∉ reservedKeys := by
    intro k hk
    obtain ⟨e, he, rfl⟩ := List.mem_map.mp hk
    exact hkeys e he
  rw [runKeys_edit C st (events.map eventKey) m hk, typedText_events events hplain]
  refine ⟨?_, ?_, ?_, ?_, ?_, rfl, ?_⟩
  · intro h
    simp [appendFocused, h]
  · intro h
    simp [appendFocused, h]
  · intro h
    simp [appendFocused, h]
  · unfold appendFocused
    split_ifs <;> rfl
  · unfold appendFocused
    split_ifs <;> rfl
  · intro h
    congr 1
    apply List.map_congr_left
    intro e he
    simp [eventKey, h e he]

/-- Witness for C5: typing "a", pasting "bc" and typing "d" into the project
name. -/
theorem runKeys_edit_appends_witness :
    (runKeys (memCollab 200) [] initialModel [goStr "a", goStr "[bc]", goStr "d"]).1 =
      { initialModel with projectName := goStr "abcd" } :=
  ((runKeys_edit_appends (memCollab 200) [] initialModel
    [⟨false, goStr "a"⟩, ⟨true, goStr "bc"⟩, ⟨false, goStr "d"⟩]
    (by
      intro e he
      simp only [List.mem_cons, List.mem_singleton, List.not_mem_nil, or_false] at he
      rcases he with rfl | rfl | rfl <;> exact ⟨by decide, by decide⟩)
    (by decide)).1 rfl).trans (by decide)

/-- C6 (code at the failing input): in the initial state the edit event "é",
one character of two bytes, appends both bytes to the project-name buffer, and
the following "backspace" slices off a single byte, leaving the ill-formed
buffer 0xC3 instead of restoring the original empty buffer. -/
theorem update_backspace_multibyte :
    goStr "é" ∉ reservedKeys ∧ "é".length = 1 ∧
    initialModel.currentScreen = setupScreen ∧ initialModel.currentField = 0 ∧
    (Update (memCollab 200) [] initialModel (Msg.KeyMsg (goStr "é"))).1.1.projectName =
      goStr "é" ∧
    (Update (memCollab 200) []
        (Update (memCollab 200) [] initialModel (Msg.KeyMsg (goStr "é"))).1.1
        (Msg.KeyMsg (goStr "backspace"))).1.1.projectName = [0xC3] ∧
    (Update (memCollab 200) []
        (Update (memCollab 200) [] initialModel (Msg.KeyMsg (goStr "é"))).1.1
        (Msg.KeyMsg (goStr "backspace"))).1.1.projectName ≠ initialModel.projectName := by
  decide

/-! ## Keys on the result screen -/

/-- C9 (as stated, refuted): in the state reached from the initial state by
applying the result "Connection works!", which shows the result screen, the
edit key "x" appends to the project-name buffer and "down" moves the focus
to field 1; neither returns the state unchanged. -/
theorem update_result_screen_counterexample :
    (Update (memCollab 200) [] initialModel
        (Msg.connectionStatusMsg (goStr "Connection works!"))).1.1.currentScreen =
      connectionScreen ∧
    (Update (memCollab 200) []
        (Update (memCollab 200) [] initialModel
          (Msg.connectionStatusMsg (goStr "Connection works!"))).1.1
        (Msg.KeyMsg (goStr "x"))).1.1.projectName = goStr "x" ∧
    (Update (memCollab 200) []
        (Update (memCollab 200) [] initialModel
          (Msg.connectionStatusMsg (goStr "Connection works!"))).1.1
        (Msg.KeyMsg (goStr "x"))).1.1 ≠
      (Update (memCollab 200) [] initialModel
        (Msg.connectionStatusMsg (goStr "Connection works!"))).1.1 ∧
    (Update (memCollab 200) []
        (Update (memCollab 200) [] initialModel
          (Msg.connectionStatusMsg (goStr "Connection works!"))).1.1
        (Msg.KeyMsg (goStr "down"))).1.1.currentField = 1 := by
  decide

/-- C9 (amended): on the result screen, for every key event other than
"ctrl+c", "q" and "enter" (navigation, backspace and edit events), `Update`
returns no command, leaves the store as it was and leaves `currentScreen`,
`connectionStatus` and `err` unchanged; `currentField` and the three buffers
are updated exactly as they would be on the setup screen. -/
theorem update_result_screen_keys {σ : Type} (C : Collaborators σ) (st : σ) (m : model)
    (k : GoString) (hscreen : m.currentScreen = connectionScreen)
    (hquit : k ≠ goStr "ctrl+c" ∧ k ≠ goStr "q") (henter : k ≠ goStr "enter") :
    (Update C st m (Msg.KeyMsg k)).1.2 = none ∧
    (Update C st m (Msg.KeyMsg k)).2 = st ∧
    (Update C st m (Msg.KeyMsg k)).1.1.currentScreen = connectionScreen ∧
    (Update C st m (Msg.KeyMsg k)).1.1.connectionStatus = m.connectionStatus ∧
    (Update C st m (Msg.KeyMsg k)).1.1.err = m.err ∧
    (Update C st m (Msg.KeyMsg k)).1.1 =
      { (Update C st { m with currentScreen := setupScreen } (Msg.KeyMsg k)).1.1 with
        currentScreen := connectionScreen } := by
  obtain ⟨hq1, hq2⟩ := hquit
  rcases m with ⟨p, g, a, f, s, cs, e⟩
  dsimp only at hscreen
  subst hscreen
  simp only [Update, hq1, hq2, henter, or_self, if_false]
  split_ifs <;> simp

/-- Witness for C9: "up" on the result screen moves the focus as on the setup screen. -/
theorem update_result_screen_keys_witness :
    (Update (memCollab 200) [] { sampleModel with currentScreen := connectionScreen }
        (Msg.KeyMsg (goStr "up"))).1.1 =
      { sampleModel with currentScreen := connectionScreen, currentField := 1 } :=
  ((update_result_screen_keys (memCollab 200) []
    { sampleModel with currentScreen := connectionScreen } (goStr "up") rfl
    (by decide) (by decide)).2.2.2.2.2).trans (by decide)

/-! ## Masking of the access token -/

theorem stringsRepeat_byte (b : UInt8) (n : Nat) :
    stringsRepeat [b] n = List.replicate n b := by
  induction n with
  | zero => rfl
  | succ n ih =>
    unfold stringsRepeat at ih ⊢
    rw [List.replicate_succ, List.flatten_cons, ih, List.replicate_succ]
    rfl

theorem tokenFieldValue_eq (m : model) :
    tokenFieldValue m = List.replicate m.accessToken.length 0x2A := by
  have hstar : goStr "*" = [0x2A] := by decide
  simp only [tokenFieldValue, setupFields, hstar, stringsRepeat_byte]
  rfl

/-- C10 (as stated, refuted): after moving to the token field and typing the
single character "é", the token buffer holds that one character (two bytes)
and the displayed value has two mask characters, not one per character. -/
theorem tokenFieldValue_counterexample :
    (runKeys (memCollab 200) [] initialModel
        [goStr "down", goStr "down", goStr "é"]).1.accessToken = goStr "é" ∧
    "é".length = 1 ∧
    tokenFieldValue (runKeys (memCollab 200) [] initialModel
        [goStr "down", goStr "down", goStr "é"]).1 = goStr "**" ∧
    (tokenFieldValue (runKeys (memCollab 200) [] initialModel
        [goStr "down", goStr "down", goStr "é"]).1).length ≠ "é".length := by
  decide

/-- C10 (amended): in every state the value displayed for the access-token
field consists solely of the mask byte "*", one per byte of the `accessToken`
buffer (equal `len`), and is determined by that length alone, so it carries
nothing of the token but its byte length; the line handed to the renderer for
that field is the prompt followed by this value. -/
theorem tokenFieldValue_masked (m : model) :
    (∀ b ∈ tokenFieldValue m, b = 0x2A) ∧
    (tokenFieldValue m).length = m.accessToken.length ∧
    goStr "*" = [0x2A] ∧
    (∀ m2 : model, m2.accessToken.length = m.accessToken.length →
      tokenFieldValue m2 = tokenFieldValue m) ∧
    (setupInputs m).get? 2 = some (goStr "Access-Token:    " ++ tokenFieldValue m) := by
  have hline : (setupInputs m).get? 2 =
      some (goStr "Access-Token:    " ++ tokenFieldValue m) := by
    have hpad : List.replicate (16 - (goStr "Access-Token:    ").length) (0x20 : UInt8) = [] := by
      decide
    simp only [setupInputs, setupFields, tokenFieldValue, sprintfField, List.map, List.get?,
      hpad, List.append_nil]
  refine ⟨?_, ?_, by decide, ?_, hline⟩
  · intro b hb
    rw [tokenFieldValue_eq] at hb
    exact List.eq_of_mem_replicate hb
  · rw [tokenFieldValue_eq, List.length_replicate]
  · intro m2 h
    rw [tokenFieldValue_eq, tokenFieldValue_eq, h]

/-- Witness for C10: the one-byte sample token is displayed as one mask byte. -/
theorem tokenFieldValue_masked_witness :
    tokenFieldValue sampleModel = goStr "*" :=
  ((tokenFieldValue_masked { sampleModel with accessToken := goStr "x" }).2.2.2.1
    sampleModel rfl).trans (by decide)

end GitLeadCLI
